import Mathlib

/-!
Shallow embedding of the HTTP client subsystem of the PCF repository:
`src/core/http/HttpClient.ts` (HttpClient, RetryPolicyHelper, DefaultRetryPolicy),
`src/core/http/HttpInterceptor.ts` (HttpRequestConfig, HttpResponse, IHttpInterceptor)
and `src/core/error/ErrorHandler.ts` / `ErrorTypes.ts` (ErrorCategory, ErrorInfo,
ErrorHandler).

JavaScript dynamic values are modelled by the inductive `JSVal`; property access,
truthiness, `||`, strict equality against literals, `parseInt`, `String.includes`
and `String.toLowerCase` are modelled by the `js*` helpers below.  String method
calls on non-string values throw a `TypeError`; such throws are modelled by
`Except JsErr`.  Asynchronous code is modelled synchronously (each `await` is a
plain call); promise rejection is `Except.error`.  Wall-clock effects (timers,
`new Date()`, logging) are not modelled: the retry loop instead records the list
of delays it would have awaited.
-/

/-- A dynamically typed JavaScript value (no functions or arrays are needed by
the embedded code paths). -/
inductive JSVal where
  | null
  | undefined
  | bool (b : Bool)
  | num (n : Int)
  | str (s : String)
  | obj (fields : List (String × JSVal))

/-- JavaScript truthiness (`NaN` does not arise as a stored value in the
embedded code: `parseInt` failure is represented separately). -/
def truthy : JSVal → Bool
  | .null => false
  | .undefined => false
  | .bool b => b
  | .num n => n != 0
  | .str s => s != ""
  | .obj _ => true

/-- Field lookup in an object literal (first occurrence wins, matching
JavaScript object literals whose keys are distinct). -/
def lookupField : List (String × JSVal) → String → Option JSVal
  | [], _ => none
  | (k, v) :: rest, key => if k = key then some v else lookupField rest key

/-- Property access `v?.k` (and guarded plain access `v.k`): `undefined` on
missing keys and on primitives.  Every unguarded plain access in the embedded
source sits behind a truthiness guard, so the null/undefined case never throws
there. -/
def JSVal.getProp (v : JSVal) (key : String) : JSVal :=
  match v with
  | .obj fields =>
    match lookupField fields key with
    | some x => x
    | none => .undefined
  | _ => .undefined

/-- JavaScript `a || b`. -/
def jsOr (a b : JSVal) : JSVal := if truthy a then a else b

/-- Strict equality `v === s` against a string literal. -/
def JSVal.eqStr (v : JSVal) (s : String) : Bool :=
  match v with
  | .str t => t = s
  | _ => false

/-- Strict equality `v === n` against a numeric literal. -/
def JSVal.eqNum (v : JSVal) (n : Int) : Bool :=
  match v with
  | .num m => m = n
  | _ => false

/-- JavaScript `v >= n` for the status-code comparisons.  The embedded code
only ever compares extracted status codes, which are numbers or `undefined`
(`undefined >= n` is `false`); numeric coercion of other shapes is not
exercised by the code under verification. -/
def jsGE (v : JSVal) (n : Int) : Bool :=
  match v with
  | .num m => n ≤ m
  | _ => false

/-- JavaScript `v < n`, same scope as `jsGE`. -/
def jsLT (v : JSVal) (n : Int) : Bool :=
  match v with
  | .num m => m < n
  | _ => false

/-- A runtime exception raised by the embedded JavaScript itself (as opposed
to a value deliberately thrown by the HTTP code). -/
inductive JsErr where
  | typeError (msg : String)
deriving DecidableEq, Repr

/-- ASCII lowercase of one character; the classifier only compares the result
against ASCII literals, so the non-ASCII cases of `toLowerCase` are inert. -/
def charLower (c : Char) : Char :=
  if 65 ≤ c.toNat ∧ c.toNat ≤ 90 then Char.ofNat (c.toNat + 32) else c

/-- ASCII lowercase of a string. -/
def strLower (s : String) : String := String.mk (s.toList.map charLower)

/-- `v.toLowerCase()`: a method call that throws a `TypeError` unless `v` is a
string. -/
def jsToLowerCase (v : JSVal) : Except JsErr String :=
  match v with
  | .str s => .ok (strLower s)
  | _ => .error (.typeError "toLowerCase is not a function")

/-- Does `pre` occur at the head of `l`? -/
def leadMatch : List Char → List Char → Bool
  | [], _ => true
  | _ :: _, [] => false
  | a :: as, b :: bs => a = b && leadMatch as bs

/-- Does `needle` occur anywhere in `hay`? -/
def occursIn (needle : List Char) : List Char → Bool
  | [] => leadMatch needle []
  | c :: cs => leadMatch needle (c :: cs) || occursIn needle cs

/-- `s.includes(sub)` on strings. -/
def jsIncludes (s sub : String) : Bool := occursIn sub.toList s.toList

/-- `v.includes(sub)`: throws unless `v` is a string (the embedded code calls
it on values it has only checked for truthiness). -/
def jsIncludesDyn (v : JSVal) (sub : String) : Except JsErr Bool :=
  match v with
  | .str s => .ok (jsIncludes s sub)
  | _ => .error (.typeError "includes is not a function")

/-- Leading-digit parse used to model `parseInt` on a decimal string. -/
def digitsToNat : List Char → Option Nat → Option Nat
  | [], acc => acc
  | c :: cs, acc =>
    if c.isDigit then
      digitsToNat cs (some ((acc.getD 0) * 10 + (c.toNat - '0'.toNat)))
    else acc

/-- `parseInt(v)`: `none` models `NaN`.  Strings parse their leading decimal
digits; numbers parse to themselves (the embedded code only reaches this with
integral values); other shapes give `NaN`, as JavaScript does for their string
coercions. -/
def jsParseInt (v : JSVal) : Option Int :=
  match v with
  | .str s => (digitsToNat s.toList none).map Int.ofNat
  | .num n => some n
  | _ => none

/-- `JSON.stringify` for the acyclic values of this model.  String escaping is
not modelled (no embedded string requires it); `undefined`-valued fields are
skipped as in JavaScript. -/
def jsonStr : JSVal → String
  | .null => "null"
  | .undefined => "null"
  | .bool b => if b then "true" else "false"
  | .num n => toString n
  | .str s => "\"" ++ s ++ "\""
  | .obj fields => "\x7b" ++ jsonFields fields ++ "\x7d"
where
  /-- Serialized object fields, comma separated. -/
  jsonFields : List (String × JSVal) → String
  | [] => ""
  | [(k, v)] =>
    match v with
    | .undefined => ""
    | _ => "\"" ++ k ++ "\":" ++ jsonStr v
  | (k, v) :: rest =>
    match v with
    | .undefined => jsonFields rest
    | _ => "\"" ++ k ++ "\":" ++ jsonStr v ++ "," ++ jsonFields rest

/-- Error categories (`ErrorCategory` in `ErrorTypes.ts`). -/
inductive ErrorCategory where
  | NETWORK
  | AUTHENTICATION
  | AUTHORIZATION
  | VALIDATION
  | BUSINESS
  | SYSTEM
  | UNKNOWN
deriving DecidableEq, Repr

/-- `ErrorInfo` from `ErrorTypes.ts`, restricted to the fields the HTTP client
reads.  `context`/`userMessage` carry a wall-clock timestamp and are never read
by the client, so they are not modelled.  `retryAfter` is `Option Int`: `none`
models both an absent field and a `NaN` from `parseInt` (both falsy). -/
structure ErrorInfo where
  category : ErrorCategory
  message : JSVal
  originalError : JSVal
  statusCode : JSVal
  errorCode : JSVal
  shouldRetry : Bool
  retryAfter : Option Int

namespace ErrorHandler

/-- `ErrorHandler.extractStatusCode`. -/
def extractStatusCode (error : JSVal) : JSVal :=
  jsOr (error.getProp "status")
    (jsOr (error.getProp "statusCode")
      (jsOr ((error.getProp "response").getProp "status")
        ((error.getProp "response").getProp "statusCode")))

/-- `ErrorHandler.extractErrorCode`. -/
def extractErrorCode (error : JSVal) : JSVal :=
  jsOr (error.getProp "code")
    (jsOr ((error.getProp "error").getProp "code")
      ((((error.getProp "response").getProp "data").getProp "error").getProp "code"))

/-- `ErrorHandler.extractMessage`.  `JSON.stringify` on the values of this
model never throws, so the source's `try/catch` fallback arm is unreachable. -/
def extractMessage (error : JSVal) : JSVal :=
  if ¬ truthy error then .str "An unknown error occurred"
  else if truthy ((error.getProp "error").getProp "message") then
    (error.getProp "error").getProp "message"
  else if truthy (error.getProp "message") then error.getProp "message"
  else
    match error with
    | .str _ => error
    | _ => .str (jsonStr error)

/-- `ErrorHandler.isNetworkError`.  The two `.toLowerCase()` calls throw when
`message`/`code` are truthy non-strings. -/
def isNetworkError (error : JSVal) : Except JsErr Bool :=
  if ¬ truthy error then .ok false
  else
    match jsToLowerCase (jsOr (error.getProp "message") (.str "")) with
    | .error e => .error e
    | .ok message =>
      match jsToLowerCase (jsOr (error.getProp "code") (.str "")) with
      | .error e => .error e
      | .ok code =>
        .ok (jsIncludes message "network" || jsIncludes message "fetch" ||
          jsIncludes message "connection" || jsIncludes message "timeout" ||
          code = "econnrefused" || code = "enetunreach" || code = "etimedout" ||
          (error.getProp "name").eqStr "NetworkError" ||
          ((error.getProp "name").eqStr "TypeError" && jsIncludes message "fetch"))

/-- `ErrorHandler.isAuthenticationError`. -/
def isAuthenticationError (error : JSVal) : Bool :=
  (extractStatusCode error).eqNum 401 ||
  (error.getProp "code").eqStr "UNAUTHORIZED" ||
  (error.getProp "name").eqStr "UnauthorizedError"

/-- `ErrorHandler.isAuthorizationError`. -/
def isAuthorizationError (error : JSVal) : Bool :=
  (extractStatusCode error).eqNum 403 ||
  (error.getProp "code").eqStr "FORBIDDEN" ||
  (error.getProp "name").eqStr "ForbiddenError"

/-- `ErrorHandler.isValidationError`.  The final disjunct calls
`error.error.code.includes("Validation")` after only a truthiness check, so it
throws when that field is a truthy non-string. -/
def isValidationError (error : JSVal) : Except JsErr Bool :=
  if (extractStatusCode error).eqNum 400 ||
     (error.getProp "code").eqStr "VALIDATION_ERROR" ||
     (error.getProp "name").eqStr "ValidationError" then .ok true
  else
    let c := (error.getProp "error").getProp "code"
    if truthy c then jsIncludesDyn c "Validation"
    else .ok false

/-- `ErrorHandler.isBusinessError`. -/
def isBusinessError (error : JSVal) : Bool :=
  let s := extractStatusCode error
  jsGE s 400 && jsLT s 500 && !s.eqNum 401 && !s.eqNum 403 && !s.eqNum 400

/-- `ErrorHandler.isSystemError`. -/
def isSystemError (error : JSVal) : Bool :=
  let s := extractStatusCode error
  jsGE s 500 && jsLT s 600

/-- `ErrorHandler.categorize`: the ordered category checks. -/
def categorize (error : JSVal) : Except JsErr ErrorCategory :=
  match isNetworkError error with
  | .error e => .error e
  | .ok true => .ok .NETWORK
  | .ok false =>
    if isAuthenticationError error then .ok .AUTHENTICATION
    else if isAuthorizationError error then .ok .AUTHORIZATION
    else
      match isValidationError error with
      | .error e => .error e
      | .ok true => .ok .VALIDATION
      | .ok false =>
        if isBusinessError error then .ok .BUSINESS
        else if isSystemError error then .ok .SYSTEM
        else .ok .UNKNOWN

/-- `ErrorHandler.shouldRetry`. -/
def shouldRetry (error : JSVal) : Except JsErr Bool :=
  match categorize error with
  | .error e => .error e
  | .ok category =>
    if category = .NETWORK ∨ category = .SYSTEM then .ok true
    else if (extractStatusCode error).eqNum 429 then .ok true
    else .ok false

/-- `ErrorHandler.getRetryAfter` (milliseconds; `none` models
`undefined`/`NaN`). -/
def getRetryAfter (error : JSVal) : Except JsErr (Option Int) :=
  if (extractStatusCode error).eqNum 429 then
    let retryAfter :=
      jsOr (((error.getProp "response").getProp "headers").getProp "retry-after")
        ((error.getProp "headers").getProp "retry-after")
    if truthy retryAfter then .ok ((jsParseInt retryAfter).map (· * 1000))
    else .ok (some 1000)
  else
    match categorize error with
    | .error e => .error e
    | .ok category =>
      if category = .NETWORK ∨ category = .SYSTEM then .ok (some 1000)
      else .ok none

/-- `ErrorHandler.parse`.  The source computes `categorize` once for the
`category` field and again inside `shouldRetry`/`getRetryAfter`; the functions
are pure so the single-threaded order here yields the same `ErrorInfo`. -/
def parse (error : JSVal) : Except JsErr ErrorInfo :=
  match categorize error with
  | .error e => .error e
  | .ok category =>
    match shouldRetry error with
    | .error e => .error e
    | .ok sr =>
      match getRetryAfter error with
      | .error e => .error e
      | .ok ra =>
        .ok { category := category
              message := extractMessage error
              originalError := error
              statusCode := extractStatusCode error
              errorCode := extractErrorCode error
              shouldRetry := sr
              retryAfter := ra }

end ErrorHandler

/-- `RetryPolicy` from `RetryPolicy.ts`.  `maxAttempts` is the loop bound of
`HttpClient.request`; the claims only exercise natural-number policies. -/
structure RetryPolicy where
  maxAttempts : Nat
  baseDelay : Int
  maxDelay : Int
  exponentialBackoff : Bool
  retryableErrors : Option (List ErrorCategory)

/-- `DefaultRetryPolicy` from `RetryPolicy.ts`. -/
def DefaultRetryPolicy : RetryPolicy :=
  { maxAttempts := 3
    baseDelay := 1000
    maxDelay := 10000
    exponentialBackoff := true
    retryableErrors := some [.NETWORK, .SYSTEM] }

/-- Truthiness of the `retryAfter` field as tested by
`if (errorInfo.retryAfter)`. -/
def optTruthy : Option Int → Bool
  | some n => n != 0
  | none => false

namespace RetryPolicyHelper

/-- `RetryPolicyHelper.calculateDelay`. -/
def calculateDelay (attempt : Nat) (policy : RetryPolicy) : Int :=
  if ¬ policy.exponentialBackoff then policy.baseDelay
  else min (policy.baseDelay * 2 ^ (attempt - 1)) policy.maxDelay

/-- `RetryPolicyHelper.shouldRetry`.  A `TypeError` raised by
`ErrorHandler.parse` propagates (the call is not wrapped in a `try`). -/
def shouldRetry (error : JSVal) (attempt : Nat) (policy : RetryPolicy) :
    Except JsErr Bool :=
  if policy.maxAttempts ≤ attempt then .ok false
  else
    match ErrorHandler.parse error with
    | .error e => .error e
    | .ok errorInfo =>
      match policy.retryableErrors with
      | some cats =>
        if cats.length > 0 then .ok (cats.contains errorInfo.category)
        else .ok errorInfo.shouldRetry
      | none => .ok errorInfo.shouldRetry

/-- `RetryPolicyHelper.getRetryDelay`. -/
def getRetryDelay (error : JSVal) (attempt : Nat) (policy : RetryPolicy) :
    Except JsErr Int :=
  match ErrorHandler.parse error with
  | .error e => .error e
  | .ok errorInfo =>
    if optTruthy errorInfo.retryAfter then .ok (errorInfo.retryAfter.getD 0)
    else .ok (calculateDelay attempt policy)

end RetryPolicyHelper

/-- HTTP methods of `HttpRequestConfig` (`HttpInterceptor.ts`). -/
inductive Method where
  | GET
  | POST
  | PUT
  | DELETE
  | PATCH
deriving DecidableEq, Repr

/-- `HttpRequestConfig` (`HttpInterceptor.ts`).  Absent optional fields are
`[]`, `JSVal.undefined` or `none`; spreading an absent header record behaves
like spreading the empty one. -/
structure HttpRequestConfig where
  url : String
  method : Method
  headers : List (String × String) := []
  body : JSVal := .undefined
  timeout : Option Int := none
  retryPolicy : Option RetryPolicy := none

/-- `HttpResponse` (`HttpInterceptor.ts`). -/
structure HttpResponse where
  data : JSVal
  status : Int
  statusText : String
  headers : List (String × String)
  config : HttpRequestConfig

/-- `IHttpInterceptor` (`HttpInterceptor.ts`): any subset of the three hooks.
Hooks are modelled as pure functions whose `Except.error` is a promise
rejection / thrown value. -/
structure Interceptor where
  onRequest : Option (HttpRequestConfig → Except JSVal HttpRequestConfig) := none
  onResponse : Option (HttpResponse → Except JSVal HttpResponse) := none
  onError : Option (JSVal → Except JSVal JSVal) := none

/-- `HttpClientConfig` (`HttpClient.ts`). -/
structure HttpClientConfig where
  baseUrl : Option String := none
  timeout : Option Int := none
  defaultHeaders : List (String × String) := []
  retryPolicy : Option RetryPolicy := none

/-- An `HttpClient` instance: its merged configuration and its ordered
interceptor list. -/
structure HttpClientState where
  config : HttpClientConfig
  interceptors : List Interceptor

/-- One base entry after a spread: its value is replaced when the overriding
record has an exactly equal key. -/
def overrideEntry {β : Type} (over : List (String × β)) (kv : String × β) :
    String × β :=
  match List.lookup kv.1 over with
  | some w => (kv.1, w)
  | none => kv

/-- JavaScript object spread `\x7b ...base, ...over \x7d` on string records:
keys of `base` keep their position but take `over`'s value on an exact key
match; keys only in `over` are appended in order. -/
def spreadMerge (base over : List (String × String)) : List (String × String) :=
  base.map (overrideEntry over) ++
  over.filter fun kv => (List.lookup kv.1 base).isNone

/-- `config.timeout || this.config.timeout`: `0` is falsy. -/
def orTimeout : Option Int → Option Int → Option Int
  | some t, b => if t != 0 then some t else b
  | none, b => b

/-- `url.startsWith("http")`, via character lists. -/
def strStartsWith (s pre : String) : Bool := leadMatch pre.toList s.toList

/-- `HttpClient.buildRequestConfig`. -/
def buildRequestConfig (clientConfig : HttpClientConfig)
    (config : HttpRequestConfig) : HttpRequestConfig :=
  let url :=
    if strStartsWith config.url "http" then config.url
    else (clientConfig.baseUrl.getD "") ++ config.url
  { config with
    url := url
    headers := spreadMerge clientConfig.defaultHeaders config.headers
    timeout := orTimeout config.timeout clientConfig.timeout
    retryPolicy := config.retryPolicy.orElse fun _ => clientConfig.retryPolicy }

/-- The `RequestInit` record `HttpClient.executeRequest` hands to `fetch`
(method, headers, optional serialized body; the abort signal carries no data). -/
structure FetchRequestInit where
  method : Method
  headers : List (String × String)
  body : Option String
deriving DecidableEq, Repr

/-- Body serialization in `executeRequest`: strings pass through, other values
are `JSON.stringify`ed. -/
def serializeBody (body : JSVal) : String :=
  match body with
  | .str s => s
  | v => jsonStr v

/-- The `fetchConfig` built by `HttpClient.executeRequest`: the body is
attached only when it is truthy and the method is not GET. -/
def buildFetchConfig (config : HttpRequestConfig) : FetchRequestInit :=
  { method := config.method
    headers := config.headers
    body :=
      if truthy config.body && !(config.method = .GET) then
        some (serializeBody config.body)
      else none }

/-- The full transport exchange `fetch(config.url, fetchConfig)` as a value:
target URL plus the request-init record. -/
def transportExchange (config : HttpRequestConfig) : String × FetchRequestInit :=
  (config.url, buildFetchConfig config)

/-- The synthetic timeout error thrown by `executeRequest` when the abort
signal fired. -/
def timeoutError : JSVal :=
  .obj [("message", .str "Request timeout"), ("code", .str "TIMEOUT"),
        ("status", .num 408)]

/-- The `catch` clause of `HttpClient.executeRequest`: an `AbortError` raised
by the aborted `fetch` is replaced by `timeoutError`; everything else is
rethrown unchanged. -/
def executeRequestCatch (error : JSVal) : JSVal :=
  let isAbort :=
    truthy error &&
    (match error with
     | .obj fields => (lookupField fields "name").isSome
     | .null => false
     | _ => false) &&
    (error.getProp "name").eqStr "AbortError"
  if isAbort then timeoutError else error

/-- `HttpClient.applyRequestInterceptors`: fold the `onRequest` hooks in
registration order; a missing hook is a pass-through. -/
def applyRequestInterceptors : List Interceptor → HttpRequestConfig →
    Except JSVal HttpRequestConfig
  | [], config => .ok config
  | i :: rest, config =>
    match i.onRequest with
    | some f =>
      match f config with
      | .error e => .error e
      | .ok config2 => applyRequestInterceptors rest config2
    | none => applyRequestInterceptors rest config

/-- `HttpClient.applyResponseInterceptors`. -/
def applyResponseInterceptors : List Interceptor → HttpResponse →
    Except JSVal HttpResponse
  | [], response => .ok response
  | i :: rest, response =>
    match i.onResponse with
    | some f =>
      match f response with
      | .error e => .error e
      | .ok response2 => applyResponseInterceptors rest response2
    | none => applyResponseInterceptors rest response

/-- A value thrown out of `HttpClient.request`: either a JavaScript value the
HTTP code threw deliberately, or a `TypeError` raised inside the classifier. -/
inductive Thrown where
  | js (v : JSVal)
  | typeErr (e : JsErr)

/-- One attempt's `try` block of `HttpClient.request`: request interceptors,
then the exchange, then response interceptors.  `exec` abstracts the transport
outcome of `executeRequest` for a given attempt number and intercepted config
(the timeout race is already folded into the error value it returns, per
`executeRequestCatch`).  The second component counts `exec` invocations. -/
def attemptOnce (interceptors : List Interceptor)
    (exec : Nat → HttpRequestConfig → Except JSVal HttpResponse)
    (fullConfig : HttpRequestConfig) (attempt : Nat) :
    Except JSVal JSVal × Nat :=
  match applyRequestInterceptors interceptors fullConfig with
  | .error e => (.error e, 0)
  | .ok interceptedConfig =>
    match exec attempt interceptedConfig with
    | .error e => (.error e, 1)
    | .ok response =>
      match applyResponseInterceptors interceptors response with
      | .error e => (.error e, 1)
      | .ok interceptedResponse => (.ok interceptedResponse.data, 1)

/-- The retry loop of `HttpClient.request` (lines 145-192 of `HttpClient.ts`).
`remaining` is the fuel `maxAttempts + 1 - attempt`, so fuel 0 is the loop
exit `throw lastError` (reachable only when `maxAttempts` is 0, since the
attempt-cap check inside `shouldRetry` stops every run at the final attempt;
the `ErrorHandler.parse` call on that path is pure instrumentation and does
not change the thrown value).  Results: outcome, number of `exec` invocations,
and the list of awaited backoff delays in order. -/
def requestAux (interceptors : List Interceptor)
    (exec : Nat → HttpRequestConfig → Except JSVal HttpResponse)
    (fullConfig : HttpRequestConfig) (policy : RetryPolicy) :
    Nat → Nat → JSVal → Except Thrown JSVal × Nat × List Int
  | 0, _, lastError => (.error (.js lastError), 0, [])
  | remaining + 1, attempt, _ =>
    match attemptOnce interceptors exec fullConfig attempt with
    | (.ok v, n) => (.ok v, n, [])
    | (.error e, n) =>
      match RetryPolicyHelper.shouldRetry e attempt policy with
      | .error te => (.error (.typeErr te), n, [])
      | .ok false => (.error (.js e), n, [])
      | .ok true =>
        match RetryPolicyHelper.getRetryDelay e attempt policy with
        | .error te => (.error (.typeErr te), n, [])
        | .ok d =>
          let rest := requestAux interceptors exec fullConfig policy remaining
            (attempt + 1) e
          (rest.1, n + rest.2.1, d :: rest.2.2)

/-- `HttpClient.request`: build the effective config, resolve the policy via
`fullConfig.retryPolicy || this.config.retryPolicy || DefaultRetryPolicy`, and
run the retry loop from attempt 1 with `lastError` initially `undefined`. -/
def request (client : HttpClientState)
    (exec : Nat → HttpRequestConfig → Except JSVal HttpResponse)
    (requestConfig : HttpRequestConfig) :
    Except Thrown JSVal × Nat × List Int :=
  let fullConfig := buildRequestConfig client.config requestConfig
  let retryPolicy :=
    ((fullConfig.retryPolicy.orElse fun _ => client.config.retryPolicy).getD
      DefaultRetryPolicy)
  requestAux client.interceptors exec fullConfig retryPolicy
    retryPolicy.maxAttempts 1 .undefined

/-! ### Helper lemmas -/

/-- If `categorize` returns a category (does not throw), then `parse` returns
an `ErrorInfo` whose `category`, `shouldRetry` and `retryAfter` fields are the
values of the corresponding classifier functions. -/
theorem parse_ok_of_categorize (e : JSVal) (c : ErrorCategory)
    (h : ErrorHandler.categorize e = .ok c) :
    ∃ info : ErrorInfo, ErrorHandler.parse e = .ok info ∧ info.category = c ∧
      ErrorHandler.getRetryAfter e = .ok info.retryAfter ∧
      ErrorHandler.shouldRetry e = .ok info.shouldRetry := by
  have hsr : ∃ b, ErrorHandler.shouldRetry e = .ok b := by
    simp only [ErrorHandler.shouldRetry, h]
    split
    · exact ⟨_, rfl⟩
    · split <;> exact ⟨_, rfl⟩
  have hga : ∃ ra, ErrorHandler.getRetryAfter e = .ok ra := by
    simp only [ErrorHandler.getRetryAfter, h]
    split
    · split <;> exact ⟨_, rfl⟩
    · split <;> exact ⟨_, rfl⟩
  obtain ⟨b, hb⟩ := hsr
  obtain ⟨ra, hra⟩ := hga
  refine ⟨ErrorInfo.mk c (ErrorHandler.extractMessage e) e
      (ErrorHandler.extractStatusCode e) (ErrorHandler.extractErrorCode e)
      b ra, ?_, rfl, hra, hb⟩
  simp only [ErrorHandler.parse, h, hb, hra]

/-- A `true` verdict from `RetryPolicyHelper.shouldRetry` implies the attempt
is below the cap and `ErrorHandler.parse` succeeded on the error. -/
theorem rp_shouldRetry_true_parts (e : JSVal) (attempt : Nat)
    (policy : RetryPolicy)
    (h : RetryPolicyHelper.shouldRetry e attempt policy = .ok true) :
    attempt < policy.maxAttempts ∧ ∃ info, ErrorHandler.parse e = .ok info := by
  unfold RetryPolicyHelper.shouldRetry at h
  split at h
  · exact absurd (Except.ok.inj h) (by simp)
  · refine ⟨by omega, ?_⟩
    cases hp : ErrorHandler.parse e with
    | error te => rw [hp] at h; exact absurd h (by simp)
    | ok info => exact ⟨info, rfl⟩

/-- Once `parse` succeeds, `getRetryDelay` cannot throw. -/
theorem getRetryDelay_ok_of_parse (e : JSVal) (attempt : Nat)
    (policy : RetryPolicy) (info : ErrorInfo)
    (h : ErrorHandler.parse e = .ok info) :
    ∃ d, RetryPolicyHelper.getRetryDelay e attempt policy = .ok d := by
  simp only [RetryPolicyHelper.getRetryDelay, h]
  split <;> exact ⟨_, rfl⟩

/-- At or beyond the attempt cap, `RetryPolicyHelper.shouldRetry` is `false`
for every error and policy. -/
theorem rp_shouldRetry_at_cap (e : JSVal) (attempt : Nat) (policy : RetryPolicy)
    (h : policy.maxAttempts ≤ attempt) :
    RetryPolicyHelper.shouldRetry e attempt policy = .ok false := by
  unfold RetryPolicyHelper.shouldRetry
  rw [if_pos h]

/-- With an empty interceptor list, one attempt is exactly one `exec` call. -/
theorem attemptOnce_nil (exec : Nat → HttpRequestConfig → Except JSVal HttpResponse)
    (cfg : HttpRequestConfig) (attempt : Nat) (err : JSVal)
    (hexec : exec attempt cfg = .error err) :
    attemptOnce [] exec cfg attempt = (.error err, 1) := by
  simp [attemptOnce, applyRequestInterceptors, hexec]

/-- Retry-loop induction: with no interceptors and an executor failing at
every attempt with a policy-retryable error, the loop started at attempt `a`
with `r = maxAttempts + 1 - a` remaining attempts performs exactly `r`
executor calls and throws the final attempt's error. -/
theorem requestAux_always_fail
    (exec : Nat → HttpRequestConfig → Except JSVal HttpResponse)
    (errs : Nat → JSVal) (cfg : HttpRequestConfig) (policy : RetryPolicy)
    (hexec : ∀ a c, exec a c = .error (errs a))
    (hretry : ∀ k, 1 ≤ k → k < policy.maxAttempts →
      RetryPolicyHelper.shouldRetry (errs k) k policy = .ok true) :
    ∀ (r a : Nat) (last : JSVal), 1 ≤ a → 1 ≤ r →
      a + r = policy.maxAttempts + 1 →
      (requestAux [] exec cfg policy r a last).1 =
        .error (.js (errs policy.maxAttempts)) ∧
      (requestAux [] exec cfg policy r a last).2.1 = r := by
  intro r
  induction r with
  | zero => intro a last _ h2 _; omega
  | succ r ih =>
    intro a last h1 _ hsum
    have hstep := attemptOnce_nil exec cfg a (errs a) (hexec a cfg)
    by_cases hcap : policy.maxAttempts ≤ a
    · have ha : a = policy.maxAttempts := by omega
      subst ha
      have hr : r = 0 := by omega
      subst hr
      simp only [requestAux, hstep, rp_shouldRetry_at_cap _ _ _ hcap]
      constructor <;> trivial
    · push_neg at hcap
      have ht := hretry a h1 hcap
      obtain ⟨-, info, hp⟩ := rp_shouldRetry_true_parts _ _ _ ht
      obtain ⟨d, hd⟩ := getRetryDelay_ok_of_parse _ a policy info hp
      have hrec := ih (a + 1) (errs a) (by omega) (by omega) (by omega)
      simp only [requestAux, hstep, ht, hd]
      exact ⟨hrec.1, by rw [hrec.2]; omega⟩

/-- Drop an interceptor's `onError` hook, keeping the other hooks. -/
def eraseOnError (i : Interceptor) : Interceptor :=
  { i with onError := none }

/-- Request interceptor folding ignores `onError` hooks. -/
theorem applyRequestInterceptors_eraseOnError (is : List Interceptor) :
    ∀ cfg, applyRequestInterceptors (is.map eraseOnError) cfg =
      applyRequestInterceptors is cfg := by
  induction is with
  | nil => intro cfg; rfl
  | cons i rest ih =>
    intro cfg
    cases hreq : i.onRequest with
    | none => simp only [List.map, applyRequestInterceptors, eraseOnError, hreq, ih]
    | some f =>
      cases hf : f cfg with
      | error e =>
        simp only [List.map, applyRequestInterceptors, eraseOnError, hreq, hf]
      | ok cfg2 =>
        simp only [List.map, applyRequestInterceptors, eraseOnError, hreq, hf, ih]

/-- Response interceptor folding ignores `onError` hooks. -/
theorem applyResponseInterceptors_eraseOnError (is : List Interceptor) :
    ∀ resp, applyResponseInterceptors (is.map eraseOnError) resp =
      applyResponseInterceptors is resp := by
  induction is with
  | nil => intro resp; rfl
  | cons i rest ih =>
    intro resp
    cases hres : i.onResponse with
    | none => simp only [List.map, applyResponseInterceptors, eraseOnError, hres, ih]
    | some f =>
      cases hf : f resp with
      | error e =>
        simp only [List.map, applyResponseInterceptors, eraseOnError, hres, hf]
      | ok resp2 =>
        simp only [List.map, applyResponseInterceptors, eraseOnError, hres, hf, ih]

/-- A single attempt ignores `onError` hooks. -/
theorem attemptOnce_eraseOnError (is : List Interceptor)
    (exec : Nat → HttpRequestConfig → Except JSVal HttpResponse)
    (cfg : HttpRequestConfig) (attempt : Nat) :
    attemptOnce (is.map eraseOnError) exec cfg attempt =
      attemptOnce is exec cfg attempt := by
  cases hreq : applyRequestInterceptors is cfg with
  | error e => simp only [attemptOnce, applyRequestInterceptors_eraseOnError, hreq]
  | ok cfg2 =>
    cases hex : exec attempt cfg2 with
    | error e =>
      simp only [attemptOnce, applyRequestInterceptors_eraseOnError, hreq, hex]
    | ok resp =>
      simp only [attemptOnce, applyRequestInterceptors_eraseOnError, hreq, hex,
        applyResponseInterceptors_eraseOnError]

/-- The whole retry loop ignores `onError` hooks. -/
theorem requestAux_eraseOnError (is : List Interceptor)
    (exec : Nat → HttpRequestConfig → Except JSVal HttpResponse)
    (cfg : HttpRequestConfig) (policy : RetryPolicy) :
    ∀ (r a : Nat) (last : JSVal),
      requestAux (is.map eraseOnError) exec cfg policy r a last =
        requestAux is exec cfg policy r a last := by
  intro r
  induction r with
  | zero => intro a last; rfl
  | succ r ih =>
    intro a last
    simp only [requestAux, attemptOnce_eraseOnError, ih]

/-- `List.lookup` distributes over append, preferring the left list. -/
theorem lookup_append {β : Type} (k : String) (l1 l2 : List (String × β)) :
    List.lookup k (l1 ++ l2) =
      match List.lookup k l1 with
      | some v => some v
      | none => List.lookup k l2 := by
  induction l1 with
  | nil => simp [List.lookup]
  | cons kv rest ih =>
    obtain ⟨k1, v1⟩ := kv
    by_cases h : k1 = k
    · simp [List.lookup, h]
    · have hbeq : (k == k1) = false := beq_eq_false_iff_ne.mpr fun hh => h hh.symm
      simp only [List.cons_append, List.lookup, hbeq]
      exact ih

/-- `List.lookup` through the overriding map of `spreadMerge`. -/
theorem lookup_spread_map {β : Type} (k : String)
    (base over : List (String × β)) :
    List.lookup k (base.map (overrideEntry over)) =
      (List.lookup k base).map fun v => (overrideEntry over (k, v)).2 := by
  induction base with
  | nil => rfl
  | cons kv rest ih =>
    obtain ⟨k1, v1⟩ := kv
    by_cases h : k1 = k
    · subst h
      cases hov : List.lookup k1 over with
      | none => simp [List.lookup, overrideEntry, hov]
      | some w => simp [List.lookup, overrideEntry, hov]
    · have hbeq : (k == k1) = false := beq_eq_false_iff_ne.mpr fun hh => h hh.symm
      cases hov : List.lookup k1 over with
      | none => simp only [List.map, overrideEntry, hov, List.lookup, hbeq, ih]
      | some w => simp only [List.map, overrideEntry, hov, List.lookup, hbeq, ih]

/-- Filtering out keys present in `base` does not change a lookup of a key
absent from `base`. -/
theorem lookup_spread_filter {β : Type} (k : String)
    (base over : List (String × β)) (h : List.lookup k base = none) :
    List.lookup k (over.filter fun kv => (List.lookup kv.1 base).isNone) =
      List.lookup k over := by
  induction over with
  | nil => rfl
  | cons kv rest ih =>
    obtain ⟨k1, v1⟩ := kv
    by_cases hk : k1 = k
    · subst hk
      simp only [List.filter, h, Option.isNone_none]
      simp [List.lookup]
    · have hbeq : (k == k1) = false := beq_eq_false_iff_ne.mpr fun hh => hk hh.symm
      cases hbase : (List.lookup k1 base).isNone with
      | true => simp only [List.filter, hbase, List.lookup, hbeq, ih]
      | false => simp only [List.filter, hbase, List.lookup, hbeq, ih]

/-- Full characterization of `spreadMerge` lookups: the overriding record wins
on an exactly matching key, otherwise the base record's value survives. -/
theorem lookup_spreadMerge (k : String) (base over : List (String × String)) :
    List.lookup k (spreadMerge base over) =
      match List.lookup k over with
      | some v => some v
      | none => List.lookup k base := by
  unfold spreadMerge
  rw [lookup_append, lookup_spread_map]
  cases hb : List.lookup k base with
  | some v => cases ho : List.lookup k over <;> simp [overrideEntry, ho]
  | none =>
    simp only [Option.map, lookup_spread_filter k base over hb]
    cases ho : List.lookup k over <;> simp [hb]

/-! ### Concrete fixtures used by the claim theorems -/

/-- A rejected exchange carrying HTTP status 404 (classified BUSINESS). -/
def err404 : JSVal := .obj [("status", .num 404)]

/-- A 429 rejection carrying a `Retry-After: 2` header. -/
def err429 : JSVal :=
  .obj [("status", .num 429), ("headers", .obj [("retry-after", .str "2")])]

/-- A transport failure whose message classifies as NETWORK. -/
def networkErr : JSVal := .obj [("message", .str "network error")]

/-- An error value whose `message` field is a truthy non-string. -/
def badMessageErr : JSVal := .obj [("message", .num 42)]

/-- The `AbortError` raised by an aborted `fetch`. -/
def abortError : JSVal := .obj [("name", .str "AbortError")]

/-- An interceptor with only an `onError` hook, returning a recovery value. -/
def recoverInterceptor : Interceptor :=
  { onError := some fun _ => .ok (.str "recovered") }

/-- Client with the default retry policy and the recovery interceptor. -/
def c1client : HttpClientState :=
  HttpClientState.mk (HttpClientConfig.mk none none [] (some DefaultRetryPolicy))
    [recoverInterceptor]

/-- An executor failing every attempt with the synthetic timeout error. -/
def c1exec : Nat → HttpRequestConfig → Except JSVal HttpResponse :=
  fun _ _ => .error timeoutError

/-- A bare GET request. -/
def c1rc : HttpRequestConfig := { url := "/x", method := .GET }

/-- Policy of the end-to-end scenario: `maxAttempts = 3`, `baseDelay = 100`. -/
def c2policy : RetryPolicy :=
  RetryPolicy.mk 3 100 10000 true (some [.NETWORK, .SYSTEM])

/-- Client of the end-to-end scenario. -/
def c2client : HttpClientState :=
  HttpClientState.mk
    (HttpClientConfig.mk (some "https://api.example.com") (some 30000)
      [("Content-Type", "application/json"), ("Accept", "application/json")]
      (some c2policy))
    []

/-- Executor of the scenario: NETWORK failures on attempts 1 and 2, then a
200 response with body `\x7b ok: true \x7d`. -/
def c2exec : Nat → HttpRequestConfig → Except JSVal HttpResponse :=
  fun attempt cfg =>
    if attempt ≤ 2 then .error networkErr
    else .ok (HttpResponse.mk (.obj [("ok", .bool true)]) 200 "OK" [] cfg)

/-- `get("/data")` of the scenario. -/
def c2rc : HttpRequestConfig := { url := "/data", method := .GET }

/-- A client with no configuration and no interceptors. -/
def bareClient : HttpClientState :=
  HttpClientState.mk (HttpClientConfig.mk none none [] none) []

/-- A GET request carrying the default retry policy explicitly. -/
def c3wrc : HttpRequestConfig :=
  { url := "/data", method := .GET, retryPolicy := some DefaultRetryPolicy }

/-- A two-attempt policy whose whitelist holds only BUSINESS. -/
def c4policyBUS : RetryPolicy :=
  RetryPolicy.mk 2 1000 10000 true (some [.BUSINESS])

/-- A three-attempt policy whose whitelist holds only NETWORK. -/
def c4policyNET : RetryPolicy :=
  RetryPolicy.mk 3 1000 10000 true (some [.NETWORK])

/-- The exponential-backoff policy of the delay table:
`baseDelay = 1000`, `maxDelay = 10000`. -/
def c7policy : RetryPolicy := RetryPolicy.mk 6 1000 10000 true none

/-- Client configuration with the constructor's default headers. -/
def c9client : HttpClientConfig :=
  { defaultHeaders :=
      [("Content-Type", "application/json"), ("Accept", "application/json")] }

/-- A call overriding the content type with a lowercase header key. -/
def c9rc : HttpRequestConfig :=
  { url := "/x", method := .GET, headers := [("content-type", "text/plain")] }

/-- A GET request that carries a non-empty body. -/
def c10cfg : HttpRequestConfig :=
  { url := "/data", method := .GET, body := .str "payload" }

/-! ### Claim theorems -/

/-- C1: the spec says registered `onError` hooks are invoked when `request()`
is about to surface a terminal failure, and that a value they return resolves
the call.  The retry loop in `HttpClient.request` never consults `onError`:
with a registered recovery `onError` hook and an executor failing all three
attempts, the call still rejects with the original error instead of resolving
with the hook's value, and the outcome of every call is unchanged when all
`onError` hooks are removed. -/
theorem c1_onError_hooks_never_invoked :
    (request c1client c1exec c1rc).1 = .error (.js timeoutError) ∧
    (request c1client c1exec c1rc).1 ≠ .ok (.str "recovered") ∧
    (∀ (client : HttpClientState)
      (exec : Nat → HttpRequestConfig → Except JSVal HttpResponse)
      (rc : HttpRequestConfig),
      request (HttpClientState.mk client.config
        (client.interceptors.map eraseOnError)) exec rc =
        request client exec rc) := by
  refine ⟨rfl, ?_, ?_⟩
  · intro h
    have h0 : (request c1client c1exec c1rc).1 = .error (.js timeoutError) := rfl
    rw [h0] at h
    exact Except.noConfusion h
  · intro client exec rc
    exact requestAux_eraseOnError client.interceptors exec
      (buildRequestConfig client.config rc)
      (((buildRequestConfig client.config rc).retryPolicy.orElse fun _ =>
        client.config.retryPolicy).getD DefaultRetryPolicy)
      (((buildRequestConfig client.config rc).retryPolicy.orElse fun _ =>
        client.config.retryPolicy).getD DefaultRetryPolicy).maxAttempts
      1 .undefined

/-- C2 counterexample: in the end-to-end scenario (`maxAttempts = 3`,
`baseDelay = 100`, NETWORK failures on the first two attempts), the two
recorded waits are 1000 ms each, not the policy backoffs 100 ms and 200 ms the
claim asserts. -/
theorem c2_counterexample_backoff_waits :
    (request c2client c2exec c2rc).2.2 = [1000, 1000] ∧
    (request c2client c2exec c2rc).2.2 ≠ [100, 200] := by
  constructor
  · rfl
  · intro h
    have h0 : (request c2client c2exec c2rc).2.2 = [1000, 1000] := rfl
    rw [h0] at h
    exact absurd h (by decide)

/-- C2 amended: the scenario resolves to `\x7b ok: true \x7d` after exactly
three attempts, but the two waits are 1000 ms each: whenever the classifier
supplies its NETWORK/SYSTEM `retryAfter` baseline, `getRetryDelay` returns it
and the policy's own backoff computation is not consulted. -/
theorem c2_waits_follow_classifier_hint :
    ((request c2client c2exec c2rc).1 = .ok (.obj [("ok", .bool true)]) ∧
     (request c2client c2exec c2rc).2.1 = 3 ∧
     (request c2client c2exec c2rc).2.2 = [1000, 1000]) ∧
    ∀ (attempt : Nat) (policy : RetryPolicy),
      RetryPolicyHelper.getRetryDelay networkErr attempt policy = .ok 1000 := by
  refine ⟨⟨rfl, rfl, rfl⟩, ?_⟩
  intro attempt policy
  obtain ⟨info, hp, -, hra, -⟩ := parse_ok_of_categorize networkErr .NETWORK rfl
  have h1000 : info.retryAfter = some 1000 := by
    have hx : ErrorHandler.getRetryAfter networkErr = .ok (some 1000) := rfl
    rw [hx] at hra
    exact (Except.ok.inj hra).symm
  simp only [RetryPolicyHelper.getRetryDelay, hp, h1000]
  rfl

/-- C3: for every retry policy with `maxAttempts = N` (N at least 1) and an
executor failing every attempt with an error the policy retries below the cap,
`request()` invokes the executor exactly N times and rejects with the N-th
attempt's original error. -/
theorem c3_executor_invoked_exactly_maxAttempts_times
    (N : Nat) (hN : 1 ≤ N) (policy : RetryPolicy)
    (hmax : policy.maxAttempts = N) (errs : Nat → JSVal)
    (exec : Nat → HttpRequestConfig → Except JSVal HttpResponse)
    (rc : HttpRequestConfig) (hrc : rc.retryPolicy = some policy)
    (hexec : ∀ a c, exec a c = .error (errs a))
    (hretry : ∀ k, 1 ≤ k → k < N →
      RetryPolicyHelper.shouldRetry (errs k) k policy = .ok true) :
    (request bareClient exec rc).1 = .error (.js (errs N)) ∧
    (request bareClient exec rc).2.1 = N := by
  subst hmax
  have hreq : request bareClient exec rc =
      requestAux [] exec (buildRequestConfig bareClient.config rc)
        (((buildRequestConfig bareClient.config rc).retryPolicy.orElse fun _ =>
          bareClient.config.retryPolicy).getD DefaultRetryPolicy)
        (((buildRequestConfig bareClient.config rc).retryPolicy.orElse fun _ =>
          bareClient.config.retryPolicy).getD DefaultRetryPolicy).maxAttempts
        1 .undefined := rfl
  have hres : ((buildRequestConfig bareClient.config rc).retryPolicy.orElse
      fun _ => bareClient.config.retryPolicy).getD DefaultRetryPolicy =
      policy := by
    simp [buildRequestConfig, bareClient, hrc, Option.orElse]
  rw [hres] at hreq
  rw [hreq]
  exact requestAux_always_fail exec errs (buildRequestConfig bareClient.config rc)
    policy hexec hretry policy.maxAttempts 1 .undefined (le_refl 1) hN (by omega)

/-- C3 witness: the default policy (3 attempts), an executor failing every
attempt with the timeout error, three executor calls and the final error. -/
theorem c3_witness :
    (request bareClient (fun _ _ => .error timeoutError) c3wrc).1 =
      .error (.js timeoutError) ∧
    (request bareClient (fun _ _ => .error timeoutError) c3wrc).2.1 = 3 :=
  c3_executor_invoked_exactly_maxAttempts_times 3 (by decide)
    DefaultRetryPolicy rfl (fun _ => timeoutError)
    (fun _ _ => .error timeoutError) c3wrc rfl (fun _ _ => rfl)
    (by intro k h1 h2; interval_cases k <;> rfl)

/-- C4 counterexample: with whitelist `[BUSINESS]` and two attempts, a 404
(BUSINESS) failure is retried at attempt 1 although the classifier itself says
it should not be retried — the whitelist can widen the classifier's
recommendation, so a positive retry decision does not imply the classifier
recommends retry. -/
theorem c4_counterexample_whitelist_widens :
    RetryPolicyHelper.shouldRetry err404 1 c4policyBUS = .ok true ∧
    ErrorHandler.shouldRetry err404 = .ok false :=
  ⟨rfl, rfl⟩

/-- C4 amended: a non-empty `retryableErrors` whitelist replaces (rather than
narrows) the classifier's recommendation: below the attempt cap the retry
decision is exactly membership of the classified category in the whitelist.
In particular, with whitelist `[NETWORK]` a BUSINESS-classified failure is
never retried at any attempt. -/
theorem c4_whitelist_replaces_classifier :
    (∀ (err : JSVal) (attempt : Nat) (policy : RetryPolicy)
      (cats : List ErrorCategory) (c : ErrorCategory),
      policy.retryableErrors = some cats → cats ≠ [] →
      ErrorHandler.categorize err = .ok c →
      RetryPolicyHelper.shouldRetry err attempt policy =
        .ok (decide (attempt < policy.maxAttempts) && cats.contains c)) ∧
    (∀ (err : JSVal) (attempt : Nat) (policy : RetryPolicy),
      policy.retryableErrors = some [ErrorCategory.NETWORK] →
      ErrorHandler.categorize err = .ok .BUSINESS →
      RetryPolicyHelper.shouldRetry err attempt policy = .ok false) := by
  have main : ∀ (err : JSVal) (attempt : Nat) (policy : RetryPolicy)
      (cats : List ErrorCategory) (c : ErrorCategory),
      policy.retryableErrors = some cats → cats ≠ [] →
      ErrorHandler.categorize err = .ok c →
      RetryPolicyHelper.shouldRetry err attempt policy =
        .ok (decide (attempt < policy.maxAttempts) && cats.contains c) := by
    intro err attempt policy cats c hw hne hc
    by_cases hcap : policy.maxAttempts ≤ attempt
    · rw [rp_shouldRetry_at_cap err attempt policy hcap]
      have hlt : decide (attempt < policy.maxAttempts) = false := by
        simp only [decide_eq_false_iff_not]
        omega
      rw [hlt, Bool.false_and]
    · obtain ⟨info, hp, hcat, -, -⟩ := parse_ok_of_categorize err c hc
      simp only [RetryPolicyHelper.shouldRetry, if_neg hcap, hp, hw, hcat]
      have h2 : cats.length > 0 := List.length_pos.mpr hne
      rw [if_pos h2]
      have h3 : decide (attempt < policy.maxAttempts) = true := by
        simp only [decide_eq_true_eq]
        omega
      rw [h3, Bool.true_and]
  refine ⟨main, ?_⟩
  intro err attempt policy hw hc
  rw [main err attempt policy [ErrorCategory.NETWORK] .BUSINESS hw
    (by simp) hc]
  have hcon : ([ErrorCategory.NETWORK].contains ErrorCategory.BUSINESS) =
      false := rfl
  rw [hcon, Bool.and_false]

/-- C4 witness: with whitelist `[NETWORK]`, the BUSINESS-classified 404 error
is not retried at attempt 1. -/
theorem c4_witness :
    RetryPolicyHelper.shouldRetry err404 1 c4policyNET = .ok false :=
  c4_whitelist_replaces_classifier.2 err404 1 c4policyNET rfl rfl

/-- C5: the spec says `classify` never throws, but the classifier calls
`toLowerCase` on a merely truthiness-checked `message` field:
`categorize`/`parse` on `\x7b message: 42 \x7d` raises a `TypeError` instead
of returning a classification. -/
theorem c5_classifier_throws_on_nonstring_message :
    ErrorHandler.categorize badMessageErr =
      .error (.typeError "toLowerCase is not a function") ∧
    ErrorHandler.parse badMessageErr =
      .error (.typeError "toLowerCase is not a function") :=
  ⟨rfl, rfl⟩

/-- C6: an `AbortError` from the aborted exchange is replaced by the synthetic
timeout error carrying message "Request timeout", code "TIMEOUT" and status
408; the classifier puts it in category NETWORK with a positive retry
recommendation, and the default policy retries it while attempts remain. -/
theorem c6_timeout_error_is_retryable_network :
    executeRequestCatch abortError = timeoutError ∧
    timeoutError.getProp "message" = .str "Request timeout" ∧
    timeoutError.getProp "code" = .str "TIMEOUT" ∧
    timeoutError.getProp "status" = .num 408 ∧
    ErrorHandler.categorize timeoutError = .ok .NETWORK ∧
    ErrorHandler.shouldRetry timeoutError = .ok true ∧
    RetryPolicyHelper.shouldRetry timeoutError 1 DefaultRetryPolicy = .ok true ∧
    RetryPolicyHelper.shouldRetry timeoutError 2 DefaultRetryPolicy = .ok true :=
  ⟨rfl, rfl, rfl, rfl, rfl, rfl, rfl, rfl⟩

/-- C7: when the classifier supplies no `retryAfter` hint, the delay is the
policy computation `calculateDelay`, which is
`min(baseDelay * 2 ^ (attempt - 1), maxDelay)` under exponential backoff and
`baseDelay` otherwise; with `baseDelay = 1000`, `maxDelay = 10000` the delays
for attempts 1..4 are 1000, 2000, 4000, 8000 ms and attempt 5 caps at
10000 ms. -/
theorem c7_backoff_delay_formula :
    (∀ (err : JSVal) (attempt : Nat) (policy : RetryPolicy),
      ErrorHandler.getRetryAfter err = .ok none →
      (∃ c, ErrorHandler.categorize err = .ok c) →
      RetryPolicyHelper.getRetryDelay err attempt policy =
        .ok (RetryPolicyHelper.calculateDelay attempt policy)) ∧
    (∀ (policy : RetryPolicy) (attempt : Nat),
      policy.exponentialBackoff = true →
      RetryPolicyHelper.calculateDelay attempt policy =
        min (policy.baseDelay * 2 ^ (attempt - 1)) policy.maxDelay) ∧
    (∀ (policy : RetryPolicy) (attempt : Nat),
      policy.exponentialBackoff = false →
      RetryPolicyHelper.calculateDelay attempt policy = policy.baseDelay) ∧
    RetryPolicyHelper.calculateDelay 1 c7policy = 1000 ∧
    RetryPolicyHelper.calculateDelay 2 c7policy = 2000 ∧
    RetryPolicyHelper.calculateDelay 3 c7policy = 4000 ∧
    RetryPolicyHelper.calculateDelay 4 c7policy = 8000 ∧
    RetryPolicyHelper.calculateDelay 5 c7policy = 10000 := by
  refine ⟨?_, ?_, ?_, rfl, rfl, rfl, rfl, rfl⟩
  · intro err attempt policy hra hex
    obtain ⟨c, hc⟩ := hex
    obtain ⟨info, hp, -, hra2, -⟩ := parse_ok_of_categorize err c hc
    have hnone : info.retryAfter = none := by
      rw [hra] at hra2
      exact (Except.ok.inj hra2).symm
    simp only [RetryPolicyHelper.getRetryDelay, hp, hnone]
    rfl
  · intro policy attempt h
    simp [RetryPolicyHelper.calculateDelay, h]
  · intro policy attempt h
    simp [RetryPolicyHelper.calculateDelay, h]

/-- C7 witness: the BUSINESS-classified 404 error has no `retryAfter` hint,
so attempt 3 under the table's policy waits `calculateDelay 3 = 4000` ms. -/
theorem c7_witness :
    RetryPolicyHelper.getRetryDelay err404 3 c7policy = .ok 4000 := by
  have h := c7_backoff_delay_formula.1 err404 3 c7policy rfl ⟨.BUSINESS, rfl⟩
  rw [h]
  rfl

/-- C8: a classified error with status 429 and a `Retry-After: 2` header
yields a retry delay of exactly 2000 ms at every attempt number and under
every policy — `baseDelay` is irrelevant and the `maxDelay` cap is not applied
to the server-provided value. -/
theorem c8_retry_after_header_used_verbatim (attempt : Nat)
    (policy : RetryPolicy) :
    RetryPolicyHelper.getRetryDelay err429 attempt policy = .ok 2000 := by
  obtain ⟨info, hp, -, hra, -⟩ := parse_ok_of_categorize err429 .BUSINESS rfl
  have h2000 : info.retryAfter = some 2000 := by
    have hx : ErrorHandler.getRetryAfter err429 = .ok (some 2000) := rfl
    rw [hx] at hra
    exact (Except.ok.inj hra).symm
  simp only [RetryPolicyHelper.getRetryDelay, hp, h2000]
  rfl

/-- C8 witness: attempt 1 under a policy with `maxDelay` far below 2000 still
waits exactly 2000 ms. -/
theorem c8_witness :
    RetryPolicyHelper.getRetryDelay err429 1
      (RetryPolicy.mk 3 100 500 true none) = .ok 2000 :=
  c8_retry_after_header_used_verbatim 1 (RetryPolicy.mk 3 100 500 true none)

/-- C9 counterexample: the constructor-default `Content-Type` header and a
caller header differing only in letter case are NOT merged case-insensitively:
the merged record keeps both `Content-Type: application/json` and
`content-type: text/plain` as distinct entries (three entries in total with
`Accept`), whereas the claim says the caller's case variant replaces the
default. -/
theorem c9_counterexample_case_insensitive_merge_fails :
    List.lookup "Content-Type" (buildRequestConfig c9client c9rc).headers =
      some "application/json" ∧
    List.lookup "content-type" (buildRequestConfig c9client c9rc).headers =
      some "text/plain" ∧
    (buildRequestConfig c9client c9rc).headers.length = 3 :=
  ⟨rfl, rfl, rfl⟩

/-- C9 amended: the effective headers are the JavaScript spread of the
client's default headers under the caller's headers, merged key-by-key with
the caller winning on an exactly (case-sensitively) equal key and
non-conflicting defaults retained; a caller key differing only in case does
not replace the default but coexists with it. -/
theorem c9_headers_merge_case_sensitively :
    (∀ (clientCfg : HttpClientConfig) (config : HttpRequestConfig),
      (buildRequestConfig clientCfg config).headers =
        spreadMerge clientCfg.defaultHeaders config.headers) ∧
    (∀ (base over : List (String × String)) (k : String),
      List.lookup k (spreadMerge base over) =
        match List.lookup k over with
        | some v => some v
        | none => List.lookup k base) :=
  ⟨fun _ _ => rfl, fun base over k => lookup_spreadMerge k base over⟩

/-- C9 witness: a caller header on the exact key `Content-Type` wins over the
default, while `Accept` is retained. -/
theorem c9_witness :
    List.lookup "Content-Type"
      (spreadMerge c9client.defaultHeaders [("Content-Type", "text/plain")]) =
      some "text/plain" ∧
    List.lookup "Accept"
      (spreadMerge c9client.defaultHeaders [("Content-Type", "text/plain")]) =
      some "application/json" := by
  constructor
  · rw [c9_headers_merge_case_sensitively.2 c9client.defaultHeaders
      [("Content-Type", "text/plain")] "Content-Type"]
    rfl
  · rw [c9_headers_merge_case_sensitively.2 c9client.defaultHeaders
      [("Content-Type", "text/plain")] "Accept"]
    rfl

/-- C10: for every GET request the transport exchange carries no body: the
`RequestInit` body field is `none`, and two GET configs differing only in
their body produce the identical transport exchange (URL and `RequestInit`). -/
theorem c10_get_requests_never_send_body (config : HttpRequestConfig)
    (h : config.method = Method.GET) :
    (buildFetchConfig config).body = none ∧
    ∀ b b' : JSVal,
      transportExchange { config with body := b } =
        transportExchange { config with body := b' } := by
  constructor
  · simp [buildFetchConfig, h]
  · intro b b'
    simp [transportExchange, buildFetchConfig, h]

/-- C10 witness: a GET carrying the body "payload" produces the same exchange
as the same GET with no body, and its `RequestInit` has no body field. -/
theorem c10_witness :
    (buildFetchConfig c10cfg).body = none ∧
    transportExchange { c10cfg with body := .str "payload" } =
      transportExchange { c10cfg with body := .undefined } := by
  have h := c10_get_requests_never_send_body c10cfg rfl
  exact ⟨h.1, h.2 (.str "payload") .undefined⟩
